import Mathlib

/-!
Verification development for the SSH-account Telegram bot (`src/bot.py`).

The bot's shared state lives in Redis; we shallowly embed the keys the
program uses as association lists with distinct keys:
  * plain string keys `cooldown:{user_id}` holding an expiry timestamp,
  * the sorted set `cooldown_expiry` mapping `str(user_id)` to its score
    (the same expiry timestamp),
  * the `stats:*` integer counters, keyed by their literal Redis key,
  * the `stats:unique_users` set.
Time is passed explicitly (`now : Int`) wherever the Python code calls
`time.time()`.  Python string keys built with f-strings are rebuilt with
`++` and `toString`; Python's `str.isdigit` / `int(...)` on the sorted-set
members are embedded as `py_isdigit` / `pyInt` below.
-/

namespace SSHBot

/-- Association-list lookup (models a Redis GET / ZSCORE on a key). -/
def assocGet (l : List (String × Int)) (k : String) : Option Int :=
  (l.find? (fun p => p.1 == k)).map Prod.snd

/-- Association-list update (models a Redis SET / ZADD: overwrite or insert). -/
def assocSet (l : List (String × Int)) (k : String) (v : Int) : List (String × Int) :=
  l.filter (fun p => p.1 != k) ++ [(k, v)]

/-- Association-list deletion (models a Redis DEL / ZREM). -/
def assocDel (l : List (String × Int)) (k : String) : List (String × Int) :=
  l.filter (fun p => p.1 != k)

/-- The keys of an association list are pairwise distinct (true of every
state built from the empty store by the operations below; matches the fact
that Redis keys and sorted-set members are unique). -/
def keysNodup (l : List (String × Int)) : Prop :=
  (l.map Prod.fst).Nodup

/- Configuration constants of the `Config` class in `src/bot.py`. -/
namespace Config

def COOLDOWN_HOURS : Int := 3

def COOLDOWN_SECONDS : Int := COOLDOWN_HOURS * 3600

def REQUEST_TIMEOUT : Int := 20

def MAX_CONCURRENT_REQUESTS : Nat := 15

def ENABLE_NOTIFICATIONS : Bool := true

end Config

/-- Embedding of Python `str.isdigit()` for the strings this program stores
(ASCII decimal digits; sorted-set members are produced by `str(user_id)`). -/
def py_isdigit (m : String) : Bool :=
  !m.data.isEmpty && m.data.all Char.isDigit

/-- Embedding of Python `int(...)` applied to an all-digit string (the only
way `get_expired_users` applies it, after the `isdigit` filter): the base-10
value of the digit characters. -/
def pyInt (m : String) : Int :=
  (m.data.foldl (fun n c => 10 * n + (c.toNat - 48)) 0 : Nat)

/-- The Redis-backed state of the bot, restricted to the keys the program
reads and writes. -/
structure RedisState where
  cooldown : List (String × Int)
  cooldownExpiry : List (String × Int)
  counters : List (String × Int)
  uniqueUsers : List Int
deriving Repr

/-- The empty Redis database. -/
def RedisState.empty : RedisState :=
  { cooldown := [], cooldownExpiry := [], counters := [], uniqueUsers := [] }

/-- `RedisManager.set_user_cooldown`: store `now + COOLDOWN_SECONDS` under
`cooldown:{user_id}` and ZADD `str(user_id)` with that score; return the
expiry timestamp. -/
def set_user_cooldown (now : Int) (user_id : Int) (s : RedisState) :
    RedisState × Int :=
  let expiry := now + Config.COOLDOWN_SECONDS
  ({ s with
      cooldown := assocSet s.cooldown ("cooldown:" ++ toString user_id) expiry,
      cooldownExpiry := assocSet s.cooldownExpiry (toString user_id) expiry },
   expiry)

/-- `RedisManager.remove_user_cooldown`: DEL `cooldown:{user_id}` and ZREM
`str(user_id)` from `cooldown_expiry`. -/
def remove_user_cooldown (user_id : Int) (s : RedisState) : RedisState :=
  { s with
      cooldown := assocDel s.cooldown ("cooldown:" ++ toString user_id),
      cooldownExpiry := assocDel s.cooldownExpiry (toString user_id) }

/-- `RedisManager.get_cooldown_remaining`: GET `cooldown:{user_id}`; `0` if
absent; if `int(expiry) - int(time.time()) <= 0` lazily delete the entry and
return `0`; otherwise return the remaining seconds. -/
def get_cooldown_remaining (now : Int) (user_id : Int) (s : RedisState) :
    RedisState × Int :=
  match assocGet s.cooldown ("cooldown:" ++ toString user_id) with
  | none => (s, 0)
  | some expiry =>
      if expiry - now ≤ 0 then (remove_user_cooldown user_id s, 0)
      else (s, expiry - now)

/-- ZRANGEBYSCORE `cooldown_expiry lo hi`: the members whose score lies in
`[lo, hi]` (the program never inspects the score order of the result). -/
def zrangebyscore (l : List (String × Int)) (lo hi : Int) : List String :=
  (l.filter (fun p => lo ≤ p.2 && p.2 ≤ hi)).map Prod.fst

/-- ZREMRANGEBYSCORE `cooldown_expiry lo hi`. -/
def zremrangebyscore (l : List (String × Int)) (lo hi : Int) :
    List (String × Int) :=
  l.filter (fun p => !(lo ≤ p.2 && p.2 ≤ hi))

/-- DEL of every key `cooldown:{user_id}` for the listed members, in order. -/
def delCooldownKeys (l : List (String × Int)) (ms : List String) :
    List (String × Int) :=
  ms.foldl (fun acc m => assocDel acc ("cooldown:" ++ m)) l

/-- `RedisManager.get_expired_users`: ZRANGEBYSCORE `cooldown_expiry 0 now`;
if nonempty, DEL each `cooldown:{user_id}` and ZREMRANGEBYSCORE `0 now`;
return `[int(uid) for uid in expired if uid.isdigit()]`. -/
def get_expired_users (now : Int) (s : RedisState) : RedisState × List Int :=
  let expired := zrangebyscore s.cooldownExpiry 0 now
  let s' :=
    if expired.isEmpty then s
    else
      { s with
          cooldown := delCooldownKeys s.cooldown expired,
          cooldownExpiry := zremrangebyscore s.cooldownExpiry 0 now }
  (s', expired.filterMap (fun uid => if py_isdigit uid then some (pyInt uid) else none))

/-- INCR: increment an integer key, treating a missing key as `0`. -/
def incr (l : List (String × Int)) (k : String) : List (String × Int) :=
  assocSet l k ((assocGet l k).getD 0 + 1)

/-- Read an integer counter, `0` when absent (the program reads counters as
`int(r or 0)`). -/
def getCounter (s : RedisState) (k : String) : Int :=
  (assocGet s.counters k).getD 0

/-- `RedisManager.log_request`: INCR the total / per-user / per-command
counters, SADD the user to `stats:unique_users`, SET their `last_seen`. -/
def log_request (now : Int) (user_id : Int) (command : String) (s : RedisState) :
    RedisState :=
  { s with
      counters :=
        assocSet
          (incr
            (incr
              (incr s.counters "stats:total_requests")
              ("stats:user:" ++ (toString user_id ++ ":requests")))
            ("stats:command:" ++ command))
          ("stats:user:" ++ (toString user_id ++ ":last_seen")) now,
      uniqueUsers :=
        if s.uniqueUsers.contains user_id then s.uniqueUsers
        else s.uniqueUsers ++ [user_id] }

/-- `RedisManager.log_success`: INCR the global and per-user success counters. -/
def log_success (user_id : Int) (s : RedisState) : RedisState :=
  { s with
      counters :=
        incr
          (incr s.counters "stats:success_count")
          ("stats:user:" ++ (toString user_id ++ ":success")) }

/-- `RedisManager.log_error`: INCR the global and per-type error counters,
and the per-user one when `user_id` is truthy (Python `if user_id:`, so a
`0` id is skipped). -/
def log_error (error_type : String) (user_id : Int) (s : RedisState) :
    RedisState :=
  let c := incr (incr s.counters "stats:error_count") ("stats:errors:" ++ error_type)
  { s with
      counters :=
        if user_id ≠ 0 then incr c ("stats:user:" ++ (toString user_id ++ ":errors"))
        else c }

/-- The JSON object returned by the upstream API, read back by the handler
with `.get('Usuario')` etc.; embedded as a flat string dictionary (the
program never inspects deeper structure). -/
def JsonObject := List (String × String)
deriving Repr, DecidableEq

/-- The failures `APIManager.create_ssh_account` can raise once a response
arrived: `json.JSONDecodeError` from parsing the body of a 200/201 response,
or the explicitly raised `aiohttp.ClientResponseError` for any other status. -/
inductive UpstreamError where
  | jsonDecodeError
  | clientResponseError (status : Nat) (message : String)
deriving Repr, DecidableEq

/-- An upstream HTTP response: its status, its raw body text, and the JSON
parse of that body (`none` when the body is not valid JSON; the code's two
parses, `response.json()` and the fallback `json.loads(response_text)`, read
the same text and so are embedded as this single field). -/
structure HTTPResponse where
  status : Nat
  bodyText : String
  bodyJson : Option JsonObject

/-- `APIManager.create_ssh_account`, from the point the upstream response is
in hand: status 200/201 means success and the body is parsed as JSON (a
parse failure raises `json.JSONDecodeError`); any other status raises
`aiohttp.ClientResponseError` carrying the status and the response text. -/
def create_ssh_account (resp : HTTPResponse) : Except UpstreamError JsonObject :=
  if resp.status = 200 ∨ resp.status = 201 then
    match resp.bodyJson with
    | some data => .ok data
    | none => .error .jsonDecodeError
  else
    .error (.clientResponseError resp.status resp.bodyText)

/-- The possible results of the awaited `api_manager.create_ssh_account(...)`
call as seen by `handle_create_account`: the parsed JSON on success, or the
exceptions its `except` arms catch (`asyncio.TimeoutError`,
`aiohttp.ClientResponseError`, any other `Exception` such as the
`json.JSONDecodeError` escaping `create_ssh_account`). -/
inductive APIResult where
  | ok (data : JsonObject)
  | timeout
  | clientResponseError (status : Nat) (message : String)
  | unexpected
deriving Repr, DecidableEq

/-- Whether the awaited call returned normally (no exception was raised). -/
def APIResult.isOk : APIResult → Bool
  | .ok _ => true
  | _ => false

/-- What `handle_create_account` does for the user: the cooldown denial
message, the success message (with the account data and cooldown expiry), or
one of the three error messages. -/
inductive GrantOutcome where
  | denied (remaining : Int)
  | granted (data : JsonObject) (expiry : Int)
  | failedTimeout
  | failedApiError (status : Nat)
  | failedUnexpected
deriving Repr, DecidableEq

/-- Whether a `GrantOutcome` is one of the three failure messages. -/
def GrantOutcome.isFailed : GrantOutcome → Bool
  | .failedTimeout => true
  | .failedApiError _ => true
  | .failedUnexpected => true
  | _ => false

/-- The bot's world: the Redis database plus a count of how many times
`APIManager.create_ssh_account` has been invoked (the upstream call count). -/
structure World where
  redis : RedisState
  gatewayCalls : Nat
deriving Repr

/-- `handle_create_account` in `src/bot.py`: log the request, query the
cooldown (at time `tCheck`), return the denial message if positive;
otherwise invoke `api_manager.create_ssh_account` (counted in
`gatewayCalls`; its result is the oracle argument `api`) and either set the
cooldown (at time `tSet`) and log success, or log the matching error.  The
message edits are UI and carry the data shown here. -/
def handle_create_account (tCheck tSet : Int) (user_id : Int) (api : APIResult)
    (w : World) : World × GrantOutcome :=
  let s := log_request tCheck user_id "create_account" w.redis
  let checked := get_cooldown_remaining tCheck user_id s
  if checked.2 > 0 then
    ({ w with redis := checked.1 }, .denied checked.2)
  else
    let w' : World := { redis := checked.1, gatewayCalls := w.gatewayCalls + 1 }
    match api with
    | .ok data =>
        let set := set_user_cooldown tSet user_id w'.redis
        ({ w' with redis := log_success user_id set.1 }, .granted data set.2)
    | .timeout =>
        ({ w' with redis := log_error "timeout" user_id w'.redis }, .failedTimeout)
    | .clientResponseError status _ =>
        ({ w' with redis := log_error "api_error" user_id w'.redis },
         .failedApiError status)
    | .unexpected =>
        ({ w' with redis := log_error "unexpected" user_id w'.redis },
         .failedUnexpected)

/-- One `context.bot.send_message` attempt inside the notification loop; the
oracle `sendFails` says which deliveries raise. -/
def send_notification (sendFails : Int → Bool) (user_id : Int) :
    Except String Unit :=
  if sendFails user_id then .error "send failed" else .ok ()

/-- The `for user_id in expired_users` loop of `cooldown_notification_job`:
each iteration's body is wrapped in its own `try/except Exception`, so a
failed delivery is logged and the loop continues.  Returns the list of users
whose delivery was attempted, in order. -/
def notify_loop (sendFails : Int → Bool) : List Int → List Int
  | [] => []
  | user_id :: rest =>
      match send_notification sendFails user_id with
      | .ok _ => user_id :: notify_loop sendFails rest
      | .error _ => user_id :: notify_loop sendFails rest

/-- The body of `cooldown_notification_job` inside its outer `try`: fetch the
expired users (the oracle `redisOK` is false when that Redis call raises) and
run the notification loop. -/
def notification_job_body (now : Int) (sendFails : Int → Bool) (redisOK : Bool)
    (s : RedisState) : Except String (RedisState × List Int) :=
  if redisOK then
    let fetched := get_expired_users now s
    .ok (fetched.1, notify_loop sendFails fetched.2)
  else
    .error "redis error"

/-- `cooldown_notification_job`: returns immediately when notifications are
disabled; otherwise runs the body, and the outer `except Exception` turns any
raised error into a logged message, so the job itself always returns
normally.  The result is the final Redis state and the list of users whose
notification was attempted. -/
def cooldown_notification_job (now : Int) (sendFails : Int → Bool)
    (redisOK : Bool) (s : RedisState) : RedisState × List Int :=
  if !Config.ENABLE_NOTIFICATIONS then (s, [])
  else
    match notification_job_body now sendFails redisOK s with
    | .ok r => r
    | .error _ => (s, [])

/-- State of the gateway's admission control: the counter of
`asyncio.Semaphore(Config.MAX_CONCURRENT_REQUESTS)` plus how many
`create_ssh_account` calls are inside the `async with self.semaphore` block
(`inFlight`, the calls with an HTTP request in flight) and how many are
suspended waiting to enter it. -/
structure SemState where
  available : Nat
  inFlight : Nat
  waiting : Nat
deriving Repr, DecidableEq

/-- The transitions of the semaphore discipline in
`APIManager.create_ssh_account`: a new call arrives at the `async with`; a
waiting call acquires a slot only when the counter is positive (otherwise
`asyncio.Semaphore.acquire` keeps it suspended); a finished call releases
its slot on leaving the block. -/
inductive SemStep : SemState → SemState → Prop
  | arrive (a f w : Nat) : SemStep ⟨a, f, w⟩ ⟨a, f, w + 1⟩
  | acquire (a f w : Nat) : SemStep ⟨a + 1, f, w + 1⟩ ⟨a, f + 1, w⟩
  | release (a f w : Nat) : SemStep ⟨a, f + 1, w⟩ ⟨a + 1, f, w⟩

/-- The initial state: the semaphore is created with
`MAX_CONCURRENT_REQUESTS` permits and no call is active. -/
def SemState.init : SemState :=
  ⟨Config.MAX_CONCURRENT_REQUESTS, 0, 0⟩

/-- The states the gateway can reach from startup. -/
def SemReachable (σ : SemState) : Prop :=
  Relation.ReflTransGen SemStep SemState.init σ

/-- A member is in the `cooldown_expiry` index exactly when its direct
`cooldown:{user_id}` key exists, and the score equals the stored expiry. -/
def storeConsistent (s : RedisState) : Prop :=
  ∀ m : String, assocGet s.cooldownExpiry m = assocGet s.cooldown ("cooldown:" ++ m)

/-- The store invariant: distinct keys in both structures, and the
store/index consistency. -/
def storeInv (s : RedisState) : Prop :=
  keysNodup s.cooldown ∧ keysNodup s.cooldownExpiry ∧ storeConsistent s

/-- The Cooldown Store operations of `RedisManager`, as data (the time
argument records the `time.time()` reading of that call). -/
inductive StoreOp where
  | setCooldown (now user_id : Int)
  | removeCooldown (user_id : Int)
  | getRemaining (now user_id : Int)
  | getExpired (now : Int)

/-- Run one store operation for its state effect. -/
def applyOp (s : RedisState) : StoreOp → RedisState
  | .setCooldown now uid => (set_user_cooldown now uid s).1
  | .removeCooldown uid => remove_user_cooldown uid s
  | .getRemaining now uid => (get_cooldown_remaining now uid s).1
  | .getExpired now => (get_expired_users now s).1

/-- Run a sequence of store operations sequentially. -/
def applyOps (ops : List StoreOp) (s : RedisState) : RedisState :=
  ops.foldl applyOp s

/-- A two-entry store (users 5 and 7, expiries 10 and 2000), used to evaluate
the theorems on an explicit input. -/
def sampleStore : RedisState :=
  { cooldown := [("cooldown:5", 10), ("cooldown:7", 2000)],
    cooldownExpiry := [("5", 10), ("7", 2000)],
    counters := [], uniqueUsers := [] }

/-- A store holding one expired entry for the negative identity `-5`, used to
evaluate the digit-filter behaviour on an explicit input. -/
def negIdStore : RedisState :=
  { cooldown := [("cooldown:-5", 10)],
    cooldownExpiry := [("-5", 10)],
    counters := [], uniqueUsers := [] }

end SSHBot

namespace SSHBot

/-! ### Association-list lemmas -/

theorem find?_filter_keep {α : Type} (p q : α → Bool) (l : List α)
    (h : ∀ x, p x = true → q x = true) :
    (l.filter q).find? p = l.find? p := by
  induction l with
  | nil => rfl
  | cons a t ih =>
      by_cases hp : p a = true
      · have hq := h a hp
        rw [List.filter_cons, if_pos hq, List.find?_cons_of_pos _ hp,
          List.find?_cons_of_pos _ hp]
      · by_cases hq : q a = true
        · rw [List.filter_cons, if_pos hq, List.find?_cons_of_neg _ hp,
            List.find?_cons_of_neg _ hp, ih]
        · rw [List.filter_cons, if_neg hq, ih, List.find?_cons_of_neg _ hp]

theorem assocGet_assocSet_self (l : List (String × Int)) (k : String) (v : Int) :
    assocGet (assocSet l k v) k = some v := by
  have hnone : (l.filter (fun p => p.1 != k)).find? (fun p => p.1 == k) = none := by
    rw [List.find?_eq_none]
    intro x hx
    have := (List.mem_filter.mp hx).2
    simp only [bne_iff_ne, ne_eq] at this
    simp [this]
  simp [assocSet, assocGet, List.find?_append, hnone]

theorem assocGet_assocSet_ne (l : List (String × Int)) (k k' : String) (v : Int)
    (h : k' ≠ k) : assocGet (assocSet l k v) k' = assocGet l k' := by
  have hkeep : (l.filter (fun p => p.1 != k)).find? (fun p => p.1 == k') =
      l.find? (fun p => p.1 == k') := by
    apply find?_filter_keep
    intro x hx
    have hx' : x.1 = k' := by simpa using hx
    simp [hx', h]
  have hlast : ([(k, v)] : List (String × Int)).find? (fun p => p.1 == k') = none := by
    rw [List.find?_cons_of_neg _ (by simp [Ne.symm h])]
    rfl
  simp only [assocSet, assocGet, List.find?_append, hkeep, hlast]
  cases l.find? (fun p => p.1 == k') <;> rfl

theorem assocGet_assocDel_self (l : List (String × Int)) (k : String) :
    assocGet (assocDel l k) k = none := by
  have hnone : (l.filter (fun p => p.1 != k)).find? (fun p => p.1 == k) = none := by
    rw [List.find?_eq_none]
    intro x hx
    have := (List.mem_filter.mp hx).2
    simp only [bne_iff_ne, ne_eq] at this
    simp [this]
  simp [assocDel, assocGet, hnone]

theorem assocGet_assocDel_ne (l : List (String × Int)) (k k' : String)
    (h : k' ≠ k) : assocGet (assocDel l k) k' = assocGet l k' := by
  have hkeep : (l.filter (fun p => p.1 != k)).find? (fun p => p.1 == k') =
      l.find? (fun p => p.1 == k') := by
    apply find?_filter_keep
    intro x hx
    have hx' : x.1 = k' := by simpa using hx
    simp [hx', h]
  simp [assocDel, assocGet, hkeep]

theorem assocGet_isSome_iff (l : List (String × Int)) (k : String) :
    (assocGet l k).isSome ↔ k ∈ l.map Prod.fst := by
  constructor
  · intro h
    rcases Option.isSome_iff_exists.mp h with ⟨v, hv⟩
    simp only [assocGet, Option.map_eq_some'] at hv
    rcases hv with ⟨p, hp, _⟩
    have hmem := List.mem_of_find?_eq_some hp
    have hkey : p.1 = k := by simpa using List.find?_some hp
    exact hkey ▸ List.mem_map_of_mem Prod.fst hmem
  · intro h
    rcases List.mem_map.mp h with ⟨p, hp, hk⟩
    have hs : (l.find? (fun p => p.1 == k)).isSome :=
      List.find?_isSome.mpr ⟨p, hp, by simp [hk]⟩
    rcases Option.isSome_iff_exists.mp hs with ⟨q, hq⟩
    simp [assocGet, hq]

theorem mem_of_assocGet_eq_some {l : List (String × Int)} {k : String} {v : Int}
    (h : assocGet l k = some v) : (k, v) ∈ l := by
  simp only [assocGet, Option.map_eq_some'] at h
  rcases h with ⟨p, hp, hv⟩
  have hmem := List.mem_of_find?_eq_some hp
  have hkey : p.1 = k := by simpa using List.find?_some hp
  have : p = (k, v) := by
    cases p
    simp_all
  exact this ▸ hmem

theorem assocGet_eq_some_of_mem {l : List (String × Int)} {k : String} {v : Int}
    (hnd : keysNodup l) (h : (k, v) ∈ l) : assocGet l k = some v := by
  induction l with
  | nil => cases h
  | cons p t ih =>
      simp only [keysNodup, List.map_cons, List.nodup_cons] at hnd
      rcases List.mem_cons.mp h with hh | ht
      · subst hh
        simp only [assocGet]
        rw [List.find?_cons_of_pos _ (by simp)]
        rfl
      · have hne : p.1 ≠ k := by
          intro he
          exact hnd.1 (he ▸ List.mem_map_of_mem Prod.fst ht)
        simp only [assocGet] at ih ⊢
        rw [List.find?_cons_of_neg _ (by simp [hne])]
        exact ih hnd.2 ht

theorem keysNodup_filter {l : List (String × Int)} (q : String × Int → Bool)
    (hnd : keysNodup l) : keysNodup (l.filter q) :=
  ((List.filter_sublist l).map Prod.fst).nodup hnd

theorem keysNodup_assocDel {l : List (String × Int)} (k : String)
    (hnd : keysNodup l) : keysNodup (assocDel l k) :=
  keysNodup_filter _ hnd

theorem keysNodup_assocSet {l : List (String × Int)} (k : String) (v : Int)
    (hnd : keysNodup l) : keysNodup (assocSet l k v) := by
  unfold keysNodup assocSet
  rw [List.map_append]
  apply List.Nodup.append (keysNodup_filter _ hnd) (List.nodup_singleton k)
  intro a ha hb
  have hb' : a = k := by simpa using hb
  subst hb'
  rcases List.mem_map.mp ha with ⟨p, hp, hk⟩
  have := (List.mem_filter.mp hp).2
  rw [hk] at this
  simp at this

theorem keysNodup_delAll {ms : List String} {l : List (String × Int)}
    (hnd : keysNodup l) : keysNodup (delCooldownKeys l ms) := by
  induction ms generalizing l with
  | nil => exact hnd
  | cons m rest ih => exact ih (keysNodup_assocDel _ hnd)

/-! ### String-key helpers -/

theorem append_ne_of_take_ne (p t q : String)
    (h : q.data.take p.data.length ≠ p.data) : p ++ t ≠ q := by
  intro he
  apply h
  rw [← he, String.data_append]
  exact List.take_left _ _

theorem cooldown_key_inj {m₁ m₂ : String}
    (h : ("cooldown:" ++ m₁ : String) = "cooldown:" ++ m₂) : m₁ = m₂ := by
  apply String.ext
  have hd := congrArg String.data h
  rw [String.data_append, String.data_append] at hd
  exact List.append_cancel_left hd

/-! ### Counter lemmas -/

theorem assocGet_incr_self (l : List (String × Int)) (k : String) :
    assocGet (incr l k) k = some ((assocGet l k).getD 0 + 1) := by
  rw [incr, assocGet_assocSet_self]

theorem assocGet_incr_ne (l : List (String × Int)) (k k' : String) (h : k' ≠ k) :
    assocGet (incr l k) k' = assocGet l k' := by
  rw [incr, assocGet_assocSet_ne _ _ _ _ h]

/-! ### Facts about `get_cooldown_remaining` -/

theorem get_cooldown_remaining_snd_eq (now uid : Int) (s₁ s₂ : RedisState)
    (h : s₁.cooldown = s₂.cooldown) :
    (get_cooldown_remaining now uid s₁).2 = (get_cooldown_remaining now uid s₂).2 := by
  unfold get_cooldown_remaining
  rw [h]
  cases assocGet s₂.cooldown ("cooldown:" ++ toString uid) with
  | none => rfl
  | some e => by_cases hle : e - now ≤ 0 <;> simp [hle]

theorem get_cooldown_remaining_fst_counters (now uid : Int) (s : RedisState) :
    (get_cooldown_remaining now uid s).1.counters = s.counters := by
  unfold get_cooldown_remaining
  cases assocGet s.cooldown ("cooldown:" ++ toString uid) with
  | none => rfl
  | some e => by_cases hle : e - now ≤ 0 <;> simp [hle, remove_user_cooldown]

theorem log_request_cooldown (now uid : Int) (cmd : String) (s : RedisState) :
    (log_request now uid cmd s).cooldown = s.cooldown := rfl

theorem log_error_cooldown (etype : String) (uid : Int) (s : RedisState) :
    (log_error etype uid s).cooldown = s.cooldown := rfl

/-! ### Effect of the logging helpers on the global counters -/

theorem getCounter_log_error (etype : String) (uid : Int) (s : RedisState) :
    getCounter (log_error etype uid s) "stats:error_count" =
      getCounter s "stats:error_count" + 1 := by
  have h1 : ("stats:error_count" : String) ≠ "stats:errors:" ++ etype :=
    (append_ne_of_take_ne "stats:errors:" etype "stats:error_count" (by decide)).symm
  have h2 : ("stats:error_count" : String) ≠
      "stats:user:" ++ (toString uid ++ ":errors") :=
    (append_ne_of_take_ne "stats:user:" (toString uid ++ ":errors")
      "stats:error_count" (by decide)).symm
  simp only [log_error, getCounter]
  by_cases h : uid ≠ 0
  · rw [if_pos h, assocGet_incr_ne _ _ _ h2, assocGet_incr_ne _ _ _ h1,
      assocGet_incr_self]
    rfl
  · rw [if_neg h, assocGet_incr_ne _ _ _ h1, assocGet_incr_self]
    rfl

theorem getCounter_log_success (uid : Int) (s : RedisState) :
    getCounter (log_success uid s) "stats:success_count" =
      getCounter s "stats:success_count" + 1 := by
  have h1 : ("stats:success_count" : String) ≠
      "stats:user:" ++ (toString uid ++ ":success") :=
    (append_ne_of_take_ne "stats:user:" (toString uid ++ ":success")
      "stats:success_count" (by decide)).symm
  unfold log_success getCounter
  rw [assocGet_incr_ne _ _ _ h1, assocGet_incr_self]
  rfl

theorem getCounter_log_request (now uid : Int) (cmd : String) (s : RedisState)
    (k : String) (h1 : k ≠ "stats:total_requests")
    (h2 : ∀ t : String, k ≠ "stats:user:" ++ t)
    (h3 : k ≠ "stats:command:" ++ cmd) :
    getCounter (log_request now uid cmd s) k = getCounter s k := by
  unfold log_request getCounter
  rw [assocGet_assocSet_ne _ _ _ _ (h2 _), assocGet_incr_ne _ _ _ h3,
    assocGet_incr_ne _ _ _ (h2 _), assocGet_incr_ne _ _ _ h1]

/-! ### Filtering lemmas under distinct keys -/

theorem assocGet_filter (q : String × Int → Bool) (k : String)
    {l : List (String × Int)} (hnd : keysNodup l) :
    assocGet (l.filter q) k =
      (assocGet l k).bind (fun v => if q (k, v) = true then some v else none) := by
  induction l with
  | nil => rfl
  | cons p t ih =>
      simp only [keysNodup, List.map_cons, List.nodup_cons] at hnd
      have ih' := ih hnd.2
      by_cases hk : p.1 = k
      · have hgetc : assocGet (p :: t) k = some p.2 := by
          simp only [assocGet]
          rw [List.find?_cons_of_pos _ (by simp [hk])]
          rfl
        have hq_eta : q (k, p.2) = q p := by rw [← hk]
        by_cases hq : q p = true
        · rw [List.filter_cons, if_pos hq, hgetc]
          have hh : assocGet (p :: t.filter q) k = some p.2 := by
            simp only [assocGet]
            rw [List.find?_cons_of_pos _ (by simp [hk])]
            rfl
          rw [hh]
          simp [hq_eta, hq]
        · rw [List.filter_cons, if_neg hq, hgetc]
          have hnone : assocGet (t.filter q) k = none := by
            rw [← Option.not_isSome_iff_eq_none]
            intro hs
            apply hnd.1
            rw [hk]
            exact ((List.filter_sublist t).map Prod.fst).subset
              ((assocGet_isSome_iff _ _).mp hs)
          rw [hnone]
          have hqf : q p = false := by revert hq; cases q p <;> simp
          have hq' : q (k, p.2) = false := by rw [hq_eta]; exact hqf
          simp [hq']
      · have hskip : ∀ tl : List (String × Int),
            assocGet (p :: tl) k = assocGet tl k := by
          intro tl
          simp only [assocGet]
          rw [List.find?_cons_of_neg _ (by simp [hk])]
        rw [List.filter_cons]
        by_cases hq : q p = true
        · rw [if_pos hq, hskip, hskip, ih']
        · rw [if_neg hq, hskip, ih']

theorem assocGet_filter_eq_none {l : List (String × Int)}
    {q : String × Int → Bool} {k : String} (h : ∀ v : Int, q (k, v) = false) :
    assocGet (l.filter q) k = none := by
  simp only [assocGet, Option.map_eq_none']
  rw [List.find?_eq_none]
  intro x hx
  rcases List.mem_filter.mp hx with ⟨_, hq⟩
  intro hbe
  have hx1 : x.1 = k := by simpa using hbe
  have hxq : q (k, x.2) = true := by rw [← hx1]; exact hq
  rw [h x.2] at hxq
  cases hxq

theorem mem_keys_filter_iff (q : String × Int → Bool) {l : List (String × Int)}
    {k : String} {v : Int} (hnd : keysNodup l) (hget : assocGet l k = some v) :
    k ∈ (l.filter q).map Prod.fst ↔ q (k, v) = true := by
  rw [← assocGet_isSome_iff, assocGet_filter q k hnd, hget]
  cases hq : q (k, v) <;> simp [hq]

theorem values_unique {l : List (String × Int)} (hnd : keysNodup l)
    {p₁ p₂ : String × Int} (h₁ : p₁ ∈ l) (h₂ : p₂ ∈ l) (hk : p₁.1 = p₂.1) :
    p₁ = p₂ := by
  have hg₁ : assocGet l p₁.1 = some p₁.2 := assocGet_eq_some_of_mem hnd h₁
  have hg₂ : assocGet l p₂.1 = some p₂.2 := assocGet_eq_some_of_mem hnd h₂
  rw [hk, hg₂] at hg₁
  have hv : p₂.2 = p₁.2 := by injection hg₁
  cases p₁
  cases p₂
  simp_all

/-! ### Shape of `get_expired_users` -/

theorem delCooldownKeys_eq_filter (ms : List String) (l : List (String × Int)) :
    delCooldownKeys l ms =
      l.filter (fun p => !(ms.any (fun m => p.1 == "cooldown:" ++ m))) := by
  induction ms generalizing l with
  | nil => simp [delCooldownKeys]
  | cons m rest ih =>
      show delCooldownKeys (assocDel l ("cooldown:" ++ m)) rest = _
      rw [ih]
      unfold assocDel
      rw [List.filter_filter]
      apply List.filter_congr
      intro p _
      simp only [List.any_cons, Bool.not_or, bne]
      cases hbe : (p.1 == ("cooldown:" ++ m : String)) <;>
        cases hrest : rest.any (fun m' => p.1 == "cooldown:" ++ m') <;> simp [hbe, hrest]

theorem any_cooldown_key_iff (ms : List String) (m : String) :
    (ms.any (fun m' => (("cooldown:" ++ m : String) == "cooldown:" ++ m'))) = true ↔
      m ∈ ms := by
  rw [List.any_eq_true]
  constructor
  · rintro ⟨m', hm', he⟩
    have heq : ("cooldown:" ++ m : String) = "cooldown:" ++ m' := by simpa using he
    exact (cooldown_key_inj heq) ▸ hm'
  · intro hm
    exact ⟨m, hm, by simp⟩

theorem get_expired_users_fst_cooldown (now : Int) (s : RedisState) :
    (get_expired_users now s).1.cooldown =
      delCooldownKeys s.cooldown (zrangebyscore s.cooldownExpiry 0 now) := by
  simp only [get_expired_users]
  by_cases he : (zrangebyscore s.cooldownExpiry 0 now).isEmpty
  · rw [if_pos he]
    rw [List.isEmpty_iff.mp he]
    rfl
  · rw [if_neg he]

theorem get_expired_users_fst_index (now : Int) (s : RedisState) :
    (get_expired_users now s).1.cooldownExpiry =
      zremrangebyscore s.cooldownExpiry 0 now := by
  simp only [get_expired_users]
  by_cases he : (zrangebyscore s.cooldownExpiry 0 now).isEmpty
  · rw [if_pos he]
    have h0 : zrangebyscore s.cooldownExpiry 0 now = [] := List.isEmpty_iff.mp he
    have h1 : s.cooldownExpiry.filter (fun p => 0 ≤ p.2 && p.2 ≤ now) = [] :=
      List.map_eq_nil_iff.mp h0
    unfold zremrangebyscore
    symm
    apply List.filter_eq_self.mpr
    intro p hp
    have hnin : ¬ ((0 ≤ p.2 && p.2 ≤ now) = true) := by
      intro hin
      have hmem : p ∈ s.cooldownExpiry.filter (fun p => 0 ≤ p.2 && p.2 ≤ now) :=
        List.mem_filter.mpr ⟨hp, hin⟩
      rw [h1] at hmem
      cases hmem
    simp [hnin]
  · rw [if_neg he]

theorem get_expired_users_snd (now : Int) (s : RedisState) :
    (get_expired_users now s).2 =
      (zrangebyscore s.cooldownExpiry 0 now).filterMap
        (fun uid => if py_isdigit uid then some (pyInt uid) else none) := rfl

theorem mem_get_expired_users_iff (now : Int) (s : RedisState) (uid : Int) :
    uid ∈ (get_expired_users now s).2 ↔
      ∃ p ∈ s.cooldownExpiry,
        0 ≤ p.2 ∧ p.2 ≤ now ∧ py_isdigit p.1 = true ∧ pyInt p.1 = uid := by
  rw [get_expired_users_snd, List.mem_filterMap]
  constructor
  · rintro ⟨m, hm, hf⟩
    have hm' : m ∈ (s.cooldownExpiry.filter (fun p => 0 ≤ p.2 && p.2 ≤ now)).map
        Prod.fst := hm
    rcases List.mem_map.mp hm' with ⟨p, hp, hfst⟩
    rcases List.mem_filter.mp hp with ⟨hpl, hrange⟩
    have hrange' : 0 ≤ p.2 ∧ p.2 ≤ now := by simpa using hrange
    by_cases hd : py_isdigit m = true
    · rw [if_pos hd] at hf
      refine ⟨p, hpl, hrange'.1, hrange'.2, ?_, ?_⟩
      · rw [hfst]; exact hd
      · rw [hfst]; injection hf
    · rw [if_neg hd] at hf
      cases hf
  · rintro ⟨p, hpl, h0, hn, hd, hi⟩
    refine ⟨p.1, ?_, ?_⟩
    · show p.1 ∈ zrangebyscore s.cooldownExpiry 0 now
      unfold zrangebyscore
      exact List.mem_map_of_mem Prod.fst
        (List.mem_filter.mpr ⟨hpl, by simp [h0, hn]⟩)
    · rw [if_pos hd, hi]

/-! ### Preservation of the store/index consistency invariant -/

theorem storeInv_set_user_cooldown (now uid : Int) (s : RedisState)
    (h : storeInv s) : storeInv (set_user_cooldown now uid s).1 := by
  obtain ⟨hc, hi, hcons⟩ := h
  refine ⟨keysNodup_assocSet _ _ hc, keysNodup_assocSet _ _ hi, ?_⟩
  intro m
  show assocGet (assocSet s.cooldownExpiry (toString uid)
      (now + Config.COOLDOWN_SECONDS)) m =
    assocGet (assocSet s.cooldown ("cooldown:" ++ toString uid)
      (now + Config.COOLDOWN_SECONDS)) ("cooldown:" ++ m)
  by_cases hm : m = toString uid
  · subst hm
    rw [assocGet_assocSet_self, assocGet_assocSet_self]
  · rw [assocGet_assocSet_ne _ _ _ _ hm,
      assocGet_assocSet_ne _ _ _ _ (fun he => hm (cooldown_key_inj he)), hcons m]

theorem storeInv_remove_user_cooldown (uid : Int) (s : RedisState)
    (h : storeInv s) : storeInv (remove_user_cooldown uid s) := by
  obtain ⟨hc, hi, hcons⟩ := h
  refine ⟨keysNodup_assocDel _ hc, keysNodup_assocDel _ hi, ?_⟩
  intro m
  show assocGet (assocDel s.cooldownExpiry (toString uid)) m =
    assocGet (assocDel s.cooldown ("cooldown:" ++ toString uid)) ("cooldown:" ++ m)
  by_cases hm : m = toString uid
  · subst hm
    rw [assocGet_assocDel_self, assocGet_assocDel_self]
  · rw [assocGet_assocDel_ne _ _ _ hm,
      assocGet_assocDel_ne _ _ _ (fun he => hm (cooldown_key_inj he)), hcons m]

theorem storeInv_get_cooldown_remaining (now uid : Int) (s : RedisState)
    (h : storeInv s) : storeInv (get_cooldown_remaining now uid s).1 := by
  unfold get_cooldown_remaining
  cases assocGet s.cooldown ("cooldown:" ++ toString uid) with
  | none => exact h
  | some e =>
      show storeInv (if e - now ≤ 0 then (remove_user_cooldown uid s, (0 : Int))
        else (s, e - now)).1
      by_cases hle : e - now ≤ 0
      · rw [if_pos hle]
        exact storeInv_remove_user_cooldown uid s h
      · rw [if_neg hle]
        exact h

theorem storeInv_get_expired_users (now : Int) (s : RedisState)
    (h : storeInv s) : storeInv (get_expired_users now s).1 := by
  obtain ⟨hc, hi, hcons⟩ := h
  refine ⟨?_, ?_, ?_⟩
  · rw [get_expired_users_fst_cooldown, delCooldownKeys_eq_filter]
    exact keysNodup_filter _ hc
  · rw [get_expired_users_fst_index]
    exact keysNodup_filter _ hi
  · intro m
    rw [get_expired_users_fst_cooldown, get_expired_users_fst_index,
      delCooldownKeys_eq_filter]
    unfold zremrangebyscore
    rw [assocGet_filter _ _ hi, assocGet_filter _ _ hc, ← hcons m]
    cases hg : assocGet s.cooldownExpiry m with
    | none => rfl
    | some v =>
        have hmem : m ∈ zrangebyscore s.cooldownExpiry 0 now ↔
            (0 ≤ v && v ≤ now) = true := by
          unfold zrangebyscore
          exact mem_keys_filter_iff _ hi hg
        have hany : ((zrangebyscore s.cooldownExpiry 0 now).any
            (fun m' => (("cooldown:" ++ m : String) == "cooldown:" ++ m'))) =
            (0 ≤ v && v ≤ now) := by
          cases hr : (0 ≤ v && v ≤ now : Bool) with
          | true => exact (any_cooldown_key_iff _ _).mpr (hmem.mpr hr)
          | false =>
              cases ha : ((zrangebyscore s.cooldownExpiry 0 now).any
                  (fun m' => (("cooldown:" ++ m : String) == "cooldown:" ++ m'))) with
              | false => rfl
              | true =>
                  have := hmem.mp ((any_cooldown_key_iff _ _).mp ha)
                  rw [hr] at this
                  cases this
        simp only [Option.some_bind]
        rw [hany]

theorem storeInv_applyOp (op : StoreOp) (s : RedisState) (h : storeInv s) :
    storeInv (applyOp s op) := by
  cases op with
  | setCooldown now uid => exact storeInv_set_user_cooldown now uid s h
  | removeCooldown uid => exact storeInv_remove_user_cooldown uid s h
  | getRemaining now uid => exact storeInv_get_cooldown_remaining now uid s h
  | getExpired now => exact storeInv_get_expired_users now s h

/-! ### The value returned by `get_cooldown_remaining` -/

theorem get_cooldown_remaining_snd_formula (now uid : Int) (s : RedisState) :
    (get_cooldown_remaining now uid s).2 =
      match assocGet s.cooldown ("cooldown:" ++ toString uid) with
      | none => 0
      | some expiry => max 0 (expiry - now) := by
  unfold get_cooldown_remaining
  cases assocGet s.cooldown ("cooldown:" ++ toString uid) with
  | none => rfl
  | some e =>
      show (if e - now ≤ 0 then (remove_user_cooldown uid s, (0 : Int))
        else (s, e - now)).2 = max 0 (e - now)
      by_cases hle : e - now ≤ 0
      · rw [if_pos hle]
        exact (max_eq_left hle).symm
      · rw [if_neg hle]
        exact (max_eq_right (by omega)).symm

theorem remaining_zero_later (tq t uid : Int) (s : RedisState)
    (h0 : (get_cooldown_remaining tq uid s).2 = 0) (ht : tq ≤ t) :
    (get_cooldown_remaining t uid s).2 = 0 := by
  rw [get_cooldown_remaining_snd_formula] at h0 ⊢
  cases hlook : assocGet s.cooldown ("cooldown:" ++ toString uid) with
  | none => simp
  | some e =>
      rw [hlook] at h0
      simp only [] at h0 ⊢
      have he : e - tq ≤ 0 := max_eq_left_iff.mp h0
      exact max_eq_left (by omega)

theorem get_cooldown_remaining_fst_of_none {now uid : Int} {s : RedisState}
    (hlook : assocGet s.cooldown ("cooldown:" ++ toString uid) = none) :
    (get_cooldown_remaining now uid s).1 = s := by
  simp [get_cooldown_remaining, hlook]

theorem get_cooldown_remaining_fst_of_expired {now uid e : Int} {s : RedisState}
    (hlook : assocGet s.cooldown ("cooldown:" ++ toString uid) = some e)
    (hle : e - now ≤ 0) :
    (get_cooldown_remaining now uid s).1 = remove_user_cooldown uid s := by
  simp [get_cooldown_remaining, hlook, hle]

theorem remaining_zero_after_check (tq t uid : Int) (s : RedisState)
    (h0 : (get_cooldown_remaining tq uid s).2 = 0) (ht : tq ≤ t) :
    (get_cooldown_remaining t uid (get_cooldown_remaining tq uid s).1).2 = 0 := by
  cases hlook : assocGet s.cooldown ("cooldown:" ++ toString uid) with
  | none =>
      rw [get_cooldown_remaining_fst_of_none hlook]
      exact remaining_zero_later tq t uid s h0 ht
  | some e =>
      have h0' := h0
      rw [get_cooldown_remaining_snd_formula, hlook] at h0'
      simp only [] at h0'
      have hle : e - tq ≤ 0 := max_eq_left_iff.mp h0'
      rw [get_cooldown_remaining_fst_of_expired hlook hle,
        get_cooldown_remaining_snd_formula]
      have hdel : assocGet (remove_user_cooldown uid s).cooldown
          ("cooldown:" ++ toString uid) = none := by
        show assocGet (assocDel s.cooldown ("cooldown:" ++ toString uid))
          ("cooldown:" ++ toString uid) = none
        exact assocGet_assocDel_self _ _
      rw [hdel]

/-! ### The notification loop attempts every expired user -/

theorem notify_loop_attempts_all (sendFails : Int → Bool) (users : List Int) :
    notify_loop sendFails users = users := by
  induction users with
  | nil => rfl
  | cons u rest ih =>
      unfold notify_loop send_notification
      by_cases hf : sendFails u = true
      · rw [if_pos hf]
        simp only []
        rw [ih]
      · rw [if_neg hf]
        simp only []
        rw [ih]

/-! ### Path characterizations of the grant handler -/

theorem check_not_pos (tCheck uid : Int) (w : World)
    (h0 : (get_cooldown_remaining tCheck uid w.redis).2 = 0) :
    ¬ ((get_cooldown_remaining tCheck uid
        (log_request tCheck uid "create_account" w.redis)).2 > 0) := by
  have hval : (get_cooldown_remaining tCheck uid
      (log_request tCheck uid "create_account" w.redis)).2 =
      (get_cooldown_remaining tCheck uid w.redis).2 :=
    get_cooldown_remaining_snd_eq tCheck uid _ _ rfl
  rw [gt_iff_lt, hval, h0]
  omega

theorem handle_create_account_ok_eq (tCheck tSet uid : Int) (data : JsonObject)
    (w : World) (h0 : (get_cooldown_remaining tCheck uid w.redis).2 = 0) :
    handle_create_account tCheck tSet uid (.ok data) w =
      ({ redis := log_success uid
            (set_user_cooldown tSet uid
              (get_cooldown_remaining tCheck uid
                (log_request tCheck uid "create_account" w.redis)).1).1,
         gatewayCalls := w.gatewayCalls + 1 },
       .granted data (tSet + Config.COOLDOWN_SECONDS)) := by
  simp only [handle_create_account]
  rw [if_neg (check_not_pos tCheck uid w h0)]
  rfl

theorem handle_create_account_timeout_eq (tCheck tSet uid : Int) (w : World)
    (h0 : (get_cooldown_remaining tCheck uid w.redis).2 = 0) :
    handle_create_account tCheck tSet uid .timeout w =
      ({ redis := log_error "timeout" uid
            (get_cooldown_remaining tCheck uid
              (log_request tCheck uid "create_account" w.redis)).1,
         gatewayCalls := w.gatewayCalls + 1 },
       .failedTimeout) := by
  simp only [handle_create_account]
  rw [if_neg (check_not_pos tCheck uid w h0)]

theorem handle_create_account_http_error_eq (tCheck tSet uid : Int)
    (status : Nat) (msg : String) (w : World)
    (h0 : (get_cooldown_remaining tCheck uid w.redis).2 = 0) :
    handle_create_account tCheck tSet uid (.clientResponseError status msg) w =
      ({ redis := log_error "api_error" uid
            (get_cooldown_remaining tCheck uid
              (log_request tCheck uid "create_account" w.redis)).1,
         gatewayCalls := w.gatewayCalls + 1 },
       .failedApiError status) := by
  simp only [handle_create_account]
  rw [if_neg (check_not_pos tCheck uid w h0)]

theorem handle_create_account_unexpected_eq (tCheck tSet uid : Int) (w : World)
    (h0 : (get_cooldown_remaining tCheck uid w.redis).2 = 0) :
    handle_create_account tCheck tSet uid .unexpected w =
      ({ redis := log_error "unexpected" uid
            (get_cooldown_remaining tCheck uid
              (log_request tCheck uid "create_account" w.redis)).1,
         gatewayCalls := w.gatewayCalls + 1 },
       .failedUnexpected) := by
  simp only [handle_create_account]
  rw [if_neg (check_not_pos tCheck uid w h0)]

/-! ### Claim theorems -/

/-- C1: while the cooldown query reports a positive remaining time, a grant
attempt returns Denied carrying exactly that remaining time, and the Gateway
is not invoked: the upstream call count does not increase. -/
theorem active_cooldown_denies_without_gateway_call
    (tCheck tSet uid : Int) (api : APIResult) (w : World)
    (h : 0 < (get_cooldown_remaining tCheck uid w.redis).2) :
    (handle_create_account tCheck tSet uid api w).2 =
      GrantOutcome.denied (get_cooldown_remaining tCheck uid w.redis).2 ∧
    (handle_create_account tCheck tSet uid api w).1.gatewayCalls =
      w.gatewayCalls := by
  have hval : (get_cooldown_remaining tCheck uid
      (log_request tCheck uid "create_account" w.redis)).2 =
      (get_cooldown_remaining tCheck uid w.redis).2 :=
    get_cooldown_remaining_snd_eq tCheck uid _ _ rfl
  simp only [handle_create_account]
  rw [if_pos (by rw [gt_iff_lt, hval]; exact h)]
  exact ⟨by rw [← hval], rfl⟩

/-- Witness for C1: user 7 of the sample store has 1900 seconds of cooldown
left at time 100, so the grant is denied and no upstream call is made. -/
theorem active_cooldown_denies_without_gateway_call_witness :
    (handle_create_account 100 100 7 APIResult.timeout ⟨sampleStore, 0⟩).2 =
      GrantOutcome.denied (get_cooldown_remaining 100 7 sampleStore).2 ∧
    (handle_create_account 100 100 7 APIResult.timeout
      ⟨sampleStore, 0⟩).1.gatewayCalls = 0 :=
  active_cooldown_denies_without_gateway_call 100 100 7 APIResult.timeout
    ⟨sampleStore, 0⟩ (by decide)

/-- C2: when the check passes and the Gateway call fails, the grant returns
a Failed outcome, the error counter is incremented, and the remaining
cooldown observed at any time from the check on is unchanged by the failed
grant. -/
theorem failed_gateway_leaves_cooldown_and_bumps_errors
    (tCheck tSet t uid : Int) (api : APIResult) (w : World)
    (h0 : (get_cooldown_remaining tCheck uid w.redis).2 = 0)
    (hapi : api.isOk = false) (ht : tCheck ≤ t) :
    ((handle_create_account tCheck tSet uid api w).2).isFailed = true ∧
    getCounter (handle_create_account tCheck tSet uid api w).1.redis
      "stats:error_count" = getCounter w.redis "stats:error_count" + 1 ∧
    (get_cooldown_remaining t uid
      (handle_create_account tCheck tSet uid api w).1.redis).2 =
      (get_cooldown_remaining t uid w.redis).2 := by
  have hrem : ∀ et : String,
      (get_cooldown_remaining t uid (log_error et uid
        (get_cooldown_remaining tCheck uid
          (log_request tCheck uid "create_account" w.redis)).1)).2 =
      (get_cooldown_remaining t uid w.redis).2 := by
    intro et
    have hstep : (get_cooldown_remaining t uid (log_error et uid
        (get_cooldown_remaining tCheck uid
          (log_request tCheck uid "create_account" w.redis)).1)).2 =
        (get_cooldown_remaining t uid
          (get_cooldown_remaining tCheck uid
            (log_request tCheck uid "create_account" w.redis)).1).2 :=
      get_cooldown_remaining_snd_eq t uid _ _ rfl
    have hs1 : (get_cooldown_remaining tCheck uid
        (log_request tCheck uid "create_account" w.redis)).2 = 0 := by
      rw [get_cooldown_remaining_snd_eq tCheck uid
        (log_request tCheck uid "create_account" w.redis) w.redis rfl]
      exact h0
    rw [hstep, remaining_zero_after_check tCheck t uid _ hs1 ht,
      remaining_zero_later tCheck t uid w.redis h0 ht]
  have herr : ∀ et : String,
      getCounter (log_error et uid
        (get_cooldown_remaining tCheck uid
          (log_request tCheck uid "create_account" w.redis)).1)
        "stats:error_count" =
      getCounter w.redis "stats:error_count" + 1 := by
    intro et
    rw [getCounter_log_error]
    have hck : getCounter (get_cooldown_remaining tCheck uid
        (log_request tCheck uid "create_account" w.redis)).1
        "stats:error_count" =
        getCounter (log_request tCheck uid "create_account" w.redis)
          "stats:error_count" := by
      unfold getCounter
      rw [get_cooldown_remaining_fst_counters]
    rw [hck, getCounter_log_request tCheck uid "create_account" w.redis
      "stats:error_count" (by decide)
      (fun t' => (append_ne_of_take_ne "stats:user:" t' "stats:error_count"
        (by decide)).symm)
      (by decide)]
  cases api with
  | ok d =>
      rw [show APIResult.isOk (.ok d) = true from rfl] at hapi
      cases hapi
  | timeout =>
      rw [handle_create_account_timeout_eq tCheck tSet uid w h0]
      exact ⟨rfl, herr "timeout", hrem "timeout"⟩
  | clientResponseError status msg =>
      rw [handle_create_account_http_error_eq tCheck tSet uid status msg w h0]
      exact ⟨rfl, herr "api_error", hrem "api_error"⟩
  | unexpected =>
      rw [handle_create_account_unexpected_eq tCheck tSet uid w h0]
      exact ⟨rfl, herr "unexpected", hrem "unexpected"⟩

/-- Witness for C2: a timed-out upstream call on the empty store fails,
bumps the error counter and leaves the (empty) cooldown at zero. -/
theorem failed_gateway_leaves_cooldown_and_bumps_errors_witness :
    ((handle_create_account 100 100 1 APIResult.timeout
      ⟨RedisState.empty, 0⟩).2).isFailed = true ∧
    getCounter (handle_create_account 100 100 1 APIResult.timeout
      ⟨RedisState.empty, 0⟩).1.redis "stats:error_count" =
      getCounter RedisState.empty "stats:error_count" + 1 ∧
    (get_cooldown_remaining 200 1
      (handle_create_account 100 100 1 APIResult.timeout
        ⟨RedisState.empty, 0⟩).1.redis).2 =
      (get_cooldown_remaining 200 1 RedisState.empty).2 :=
  failed_gateway_leaves_cooldown_and_bumps_errors 100 100 200 1
    APIResult.timeout ⟨RedisState.empty, 0⟩ (by decide) (by decide) (by decide)

/-- C3: immediately after a successful grant the outcome carries the
credential and the expiry `tSet + COOLDOWN_SECONDS`; querying at any time in
`[tSet, tSet + COOLDOWN_SECONDS)` yields a remaining time that is positive
and at most COOLDOWN_SECONDS, and the success counter is incremented. -/
theorem successful_grant_sets_cooldown_and_counter
    (tCheck tSet tq uid : Int) (data : JsonObject) (w : World)
    (h0 : (get_cooldown_remaining tCheck uid w.redis).2 = 0)
    (h1 : tSet ≤ tq) (h2 : tq < tSet + Config.COOLDOWN_SECONDS) :
    (handle_create_account tCheck tSet uid (.ok data) w).2 =
      GrantOutcome.granted data (tSet + Config.COOLDOWN_SECONDS) ∧
    0 < (get_cooldown_remaining tq uid
      (handle_create_account tCheck tSet uid (.ok data) w).1.redis).2 ∧
    (get_cooldown_remaining tq uid
      (handle_create_account tCheck tSet uid (.ok data) w).1.redis).2 ≤
      Config.COOLDOWN_SECONDS ∧
    getCounter (handle_create_account tCheck tSet uid (.ok data) w).1.redis
      "stats:success_count" =
      getCounter w.redis "stats:success_count" + 1 := by
  rw [handle_create_account_ok_eq tCheck tSet uid data w h0]
  have hget : assocGet (log_success uid
      (set_user_cooldown tSet uid
        (get_cooldown_remaining tCheck uid
          (log_request tCheck uid "create_account" w.redis)).1).1).cooldown
      ("cooldown:" ++ toString uid) =
      some (tSet + Config.COOLDOWN_SECONDS) := by
    show assocGet (assocSet (get_cooldown_remaining tCheck uid
        (log_request tCheck uid "create_account" w.redis)).1.cooldown
        ("cooldown:" ++ toString uid) (tSet + Config.COOLDOWN_SECONDS))
        ("cooldown:" ++ toString uid) = _
    exact assocGet_assocSet_self _ _ _
  have hval : (get_cooldown_remaining tq uid (log_success uid
      (set_user_cooldown tSet uid
        (get_cooldown_remaining tCheck uid
          (log_request tCheck uid "create_account" w.redis)).1).1)).2 =
      tSet + Config.COOLDOWN_SECONDS - tq := by
    rw [get_cooldown_remaining_snd_formula, hget]
    simp only []
    exact max_eq_right (by omega)
  refine ⟨rfl, ?_, ?_, ?_⟩
  · show 0 < (get_cooldown_remaining tq uid (log_success uid
      (set_user_cooldown tSet uid
        (get_cooldown_remaining tCheck uid
          (log_request tCheck uid "create_account" w.redis)).1).1)).2
    omega
  · show (get_cooldown_remaining tq uid (log_success uid
      (set_user_cooldown tSet uid
        (get_cooldown_remaining tCheck uid
          (log_request tCheck uid "create_account" w.redis)).1).1)).2 ≤
      Config.COOLDOWN_SECONDS
    omega
  · show getCounter (log_success uid
        (set_user_cooldown tSet uid
          (get_cooldown_remaining tCheck uid
            (log_request tCheck uid "create_account" w.redis)).1).1)
        "stats:success_count" =
      getCounter w.redis "stats:success_count" + 1
    rw [getCounter_log_success]
    have hset : getCounter (set_user_cooldown tSet uid
        (get_cooldown_remaining tCheck uid
          (log_request tCheck uid "create_account" w.redis)).1).1
        "stats:success_count" =
        getCounter (get_cooldown_remaining tCheck uid
          (log_request tCheck uid "create_account" w.redis)).1
          "stats:success_count" := rfl
    have hck : getCounter (get_cooldown_remaining tCheck uid
        (log_request tCheck uid "create_account" w.redis)).1
        "stats:success_count" =
        getCounter (log_request tCheck uid "create_account" w.redis)
          "stats:success_count" := by
      unfold getCounter
      rw [get_cooldown_remaining_fst_counters]
    rw [hset, hck, getCounter_log_request tCheck uid "create_account" w.redis
      "stats:success_count" (by decide)
      (fun t' => (append_ne_of_take_ne "stats:user:" t' "stats:success_count"
        (by decide)).symm)
      (by decide)]

/-- Witness for C3: a successful grant for user 1 on the empty store at time
100 leaves 3 hours of cooldown and one logged success. -/
theorem successful_grant_sets_cooldown_and_counter_witness :
    (handle_create_account 100 100 1 (.ok [("Usuario", "u1")])
      ⟨RedisState.empty, 0⟩).2 =
      GrantOutcome.granted [("Usuario", "u1")] (100 + Config.COOLDOWN_SECONDS) ∧
    0 < (get_cooldown_remaining 100 1
      (handle_create_account 100 100 1 (.ok [("Usuario", "u1")])
        ⟨RedisState.empty, 0⟩).1.redis).2 ∧
    (get_cooldown_remaining 100 1
      (handle_create_account 100 100 1 (.ok [("Usuario", "u1")])
        ⟨RedisState.empty, 0⟩).1.redis).2 ≤ Config.COOLDOWN_SECONDS ∧
    getCounter (handle_create_account 100 100 1 (.ok [("Usuario", "u1")])
      ⟨RedisState.empty, 0⟩).1.redis "stats:success_count" =
      getCounter RedisState.empty "stats:success_count" + 1 :=
  successful_grant_sets_cooldown_and_counter 100 100 100 1 [("Usuario", "u1")]
    ⟨RedisState.empty, 0⟩ (by decide) (by decide) (by decide)

/-- C4: on a store with distinct, nonnegative-score entries whose digit
members denote distinct identities, `get_expired_users` returns every
digit-member identity with expiry at or before `now`, only identities backed
by an entry with expiry at or before `now`, and removes what it returned, so
a second call cannot return the same identity. -/
theorem get_expired_users_complete_sound_no_repeat
    (now now₂ : Int) (s : RedisState)
    (hnd : keysNodup s.cooldownExpiry)
    (hpos : ∀ p ∈ s.cooldownExpiry, 0 ≤ p.2)
    (hinj : ∀ p ∈ s.cooldownExpiry, ∀ q ∈ s.cooldownExpiry,
      py_isdigit p.1 = true → py_isdigit q.1 = true →
      pyInt p.1 = pyInt q.1 → p.1 = q.1) :
    (∀ p ∈ s.cooldownExpiry, p.2 ≤ now → py_isdigit p.1 = true →
      pyInt p.1 ∈ (get_expired_users now s).2) ∧
    (∀ uid ∈ (get_expired_users now s).2, ∃ p ∈ s.cooldownExpiry,
      p.2 ≤ now ∧ py_isdigit p.1 = true ∧ pyInt p.1 = uid) ∧
    (∀ uid ∈ (get_expired_users now s).2,
      uid ∉ (get_expired_users now₂ (get_expired_users now s).1).2) := by
  refine ⟨?_, ?_, ?_⟩
  · intro p hp hle hd
    exact (mem_get_expired_users_iff now s _).mpr ⟨p, hp, hpos p hp, hle, hd, rfl⟩
  · intro uid hu
    rcases (mem_get_expired_users_iff now s uid).mp hu with ⟨p, hp, _, hle, hd, hi⟩
    exact ⟨p, hp, hle, hd, hi⟩
  · intro uid hu1 hu2
    rcases (mem_get_expired_users_iff now s uid).mp hu1 with
      ⟨p₁, hp₁, h01, hle₁, hd₁, hi₁⟩
    rcases (mem_get_expired_users_iff now₂ _ uid).mp hu2 with
      ⟨p₂, hp₂, h02, hle₂, hd₂, hi₂⟩
    rw [get_expired_users_fst_index] at hp₂
    unfold zremrangebyscore at hp₂
    have hp₂' : p₂ ∈ s.cooldownExpiry := List.mem_of_mem_filter hp₂
    have hnr := (List.mem_filter.mp hp₂).2
    have hkeq : p₁.1 = p₂.1 :=
      hinj p₁ hp₁ p₂ hp₂' hd₁ hd₂ (by rw [hi₁, hi₂])
    have hpeq : p₁ = p₂ := values_unique hnd hp₁ hp₂' hkeq
    rw [← hpeq] at hnr
    simp [h01, hle₁] at hnr

/-- Witness for C4: in the sample store at time 100, identity 5 (expiry 10)
is returned by the sweep and is not returned again by a later sweep at time
3000. -/
theorem get_expired_users_complete_sound_no_repeat_witness :
    pyInt "5" ∈ (get_expired_users 100 sampleStore).2 ∧
    pyInt "5" ∉ (get_expired_users 3000 (get_expired_users 100 sampleStore).1).2 := by
  have h := get_expired_users_complete_sound_no_repeat 100 3000 sampleStore
    (by unfold keysNodup; decide) (by decide) (by decide)
  have hmem : pyInt "5" ∈ (get_expired_users 100 sampleStore).2 :=
    h.1 ("5", 10) (by decide) (by decide) (by decide)
  exact ⟨hmem, h.2.2 (pyInt "5") hmem⟩

/-- C5: in every reachable state of the gateway's semaphore discipline, the
number of in-flight upstream calls is at most MAX_CONCURRENT_REQUESTS
(acquiring a slot requires a positive counter, so excess calls stay
waiting). -/
theorem gateway_inflight_bounded (σ : SemState) (h : SemReachable σ) :
    σ.inFlight ≤ Config.MAX_CONCURRENT_REQUESTS := by
  have hsum : σ.available + σ.inFlight = Config.MAX_CONCURRENT_REQUESTS := by
    induction h with
    | refl => rfl
    | tail hreach hstep ih =>
        cases hstep with
        | arrive a f w => simp only [] at ih ⊢; omega
        | acquire a f w => simp only [] at ih ⊢; omega
        | release a f w => simp only [] at ih ⊢; omega
  omega

/-- Witness for C5: the startup state is reachable and within the bound. -/
theorem gateway_inflight_bounded_witness :
    SemState.init.inFlight ≤ Config.MAX_CONCURRENT_REQUESTS :=
  gateway_inflight_bounded SemState.init Relation.ReflTransGen.refl

/-- C6: a 200/201 response yields the JSON-parsed body, a parse failure on
such a response yields the JSON-decode error, any other status yields an
error carrying the status and body, and a non-success status never yields a
credential. -/
theorem create_ssh_account_status_handling (resp : HTTPResponse) :
    ((resp.status = 200 ∨ resp.status = 201) →
      create_ssh_account resp =
        match resp.bodyJson with
        | some data => Except.ok data
        | none => Except.error UpstreamError.jsonDecodeError) ∧
    (¬(resp.status = 200 ∨ resp.status = 201) →
      create_ssh_account resp =
        Except.error (UpstreamError.clientResponseError resp.status
          resp.bodyText)) ∧
    (∀ data : JsonObject, create_ssh_account resp = Except.ok data →
      resp.status = 200 ∨ resp.status = 201) := by
  unfold create_ssh_account
  by_cases h : resp.status = 200 ∨ resp.status = 201
  · rw [if_pos h]
    exact ⟨fun _ => rfl, fun hn => absurd h hn, fun _ _ => h⟩
  · rw [if_neg h]
    refine ⟨fun hp => absurd hp h, fun _ => rfl, fun data he => ?_⟩
    cases he

/-- Witness for C6: a 500 response with body text fails with the
status-carrying error. -/
theorem create_ssh_account_status_handling_witness :
    create_ssh_account ⟨500, "error", none⟩ =
      Except.error (UpstreamError.clientResponseError 500 "error") :=
  (create_ssh_account_status_handling ⟨500, "error", none⟩).2.1 (by decide)

/-- C7: the remaining-cooldown query returns `max 0 (expiresAt - now)`:
`0` when no entry exists and `0` when the stored expiry is at or before
`now`, so callers cannot distinguish an expired entry from a missing one. -/
theorem remaining_is_max_of_expiry_minus_now (now uid : Int) (s : RedisState) :
    (get_cooldown_remaining now uid s).2 =
      match assocGet s.cooldown ("cooldown:" ++ toString uid) with
      | none => 0
      | some expiry => max 0 (expiry - now) :=
  get_cooldown_remaining_snd_formula now uid s

/-- C8: with notifications enabled, a tick attempts a delivery for every
expired identity no matter which deliveries fail, and a store error inside
the tick is caught by the outer handler so the job still returns normally. -/
theorem notification_job_attempts_all_and_catches
    (now : Int) (sendFails : Int → Bool) (s : RedisState) :
    (cooldown_notification_job now sendFails true s).2 =
      (get_expired_users now s).2 ∧
    cooldown_notification_job now sendFails false s = (s, []) := by
  refine ⟨?_, rfl⟩
  show notify_loop sendFails (get_expired_users now s).2 =
    (get_expired_users now s).2
  exact notify_loop_attempts_all _ _

/-- C9: any sequence of Cooldown Store operations, applied sequentially to a
consistent store, preserves the invariant that an identity is a member of
the `cooldown_expiry` index iff its direct cooldown key exists, with equal
expiry values. -/
theorem store_ops_preserve_consistency (ops : List StoreOp) (s : RedisState)
    (h : storeInv s) : storeInv (applyOps ops s) := by
  induction ops generalizing s with
  | nil => exact h
  | cons op rest ih => exact ih (applyOp s op) (storeInv_applyOp op s h)

/-- Witness for C9: a mixed operation sequence starting from the empty store
keeps the invariant. -/
theorem store_ops_preserve_consistency_witness :
    storeInv (applyOps [StoreOp.setCooldown 100 5, StoreOp.setCooldown 200 7,
      StoreOp.getRemaining 300 5, StoreOp.getExpired 11000,
      StoreOp.removeCooldown 7] RedisState.empty) :=
  store_ops_preserve_consistency _ RedisState.empty
    ⟨List.nodup_nil, List.nodup_nil, fun _ => rfl⟩

/-- C10: every identity returned by `get_expired_users` comes from an
all-digit member string, while an expired entry with a non-digit member is
deleted from both the index and the store without appearing in the returned
list. -/
theorem nondigit_members_deleted_never_returned
    (now : Int) (s : RedisState) (hnd : keysNodup s.cooldownExpiry) :
    (∀ uid ∈ (get_expired_users now s).2, ∃ p ∈ s.cooldownExpiry,
      py_isdigit p.1 = true ∧ pyInt p.1 = uid) ∧
    (∀ p ∈ s.cooldownExpiry, 0 ≤ p.2 → p.2 ≤ now →
      assocGet (get_expired_users now s).1.cooldownExpiry p.1 = none ∧
      assocGet (get_expired_users now s).1.cooldown ("cooldown:" ++ p.1) =
        none) := by
  constructor
  · intro uid hu
    rcases (mem_get_expired_users_iff now s uid).mp hu with ⟨p, hp, _, _, hd, hi⟩
    exact ⟨p, hp, hd, hi⟩
  · intro p hp h0 hle
    have hget : assocGet s.cooldownExpiry p.1 = some p.2 :=
      assocGet_eq_some_of_mem hnd hp
    constructor
    · rw [get_expired_users_fst_index]
      unfold zremrangebyscore
      rw [assocGet_filter _ _ hnd, hget]
      simp only [Option.some_bind]
      rw [if_neg (by simp [h0, hle])]
    · rw [get_expired_users_fst_cooldown, delCooldownKeys_eq_filter]
      apply assocGet_filter_eq_none
      intro v
      have hmem : p.1 ∈ zrangebyscore s.cooldownExpiry 0 now := by
        unfold zrangebyscore
        exact List.mem_map_of_mem Prod.fst
          (List.mem_filter.mpr ⟨hp, by simp [h0, hle]⟩)
      have hany := (any_cooldown_key_iff
        (zrangebyscore s.cooldownExpiry 0 now) p.1).mpr hmem
      simp [hany]

/-- Witness for C10: the expired entry for the negative identity `-5` is
deleted from both structures by the sweep at time 100 (and the returned list
is empty). -/
theorem nondigit_members_deleted_never_returned_witness :
    assocGet (get_expired_users 100 negIdStore).1.cooldownExpiry "-5" = none ∧
    assocGet (get_expired_users 100 negIdStore).1.cooldown
      ("cooldown:" ++ "-5") = none :=
  (nondigit_members_deleted_never_returned 100 negIdStore
      (by unfold keysNodup; decide)).2
    ("-5", 10) (by decide) (by decide) (by decide)

end SSHBot
